import Mathlib

/-!
Verification development for the `finance_dash` import and normalisation
pipeline.  The Lean definitions below are a shallow embedding of the Python
source (`backend/models.py`, `backend/importers.py`, `backend/services.py`,
`backend/database.py`): pure functions become Lean functions, the SQLite
store becomes an explicit association list, and fallible operations return
`Option`.  Python floats are modelled as exact rationals (`ℚ`); the claims
under study concern the algebraic relationships between fields, not binary
rounding.  Python `uuid4` identifiers are modelled as a monotone supply of
natural numbers threaded through extraction: the only property the code
relies on is that every freshly minted identifier is distinct from all
earlier ones.  String operations are implemented structurally on character
lists (ASCII case mapping, as every keyword the code compares against is
ASCII) so that every definition evaluates inside the kernel.
-/

namespace FinanceDash

/-- Lower-case an ASCII letter, the fragment of Python `str.lower` the
classifier's keyword comparisons exercise. -/
def lowerChar (c : Char) : Char :=
  if 65 ≤ c.toNat ∧ c.toNat ≤ 90 then Char.ofNat (c.toNat + 32) else c

/-- Upper-case an ASCII letter, the fragment of Python `str.upper` the
currency-code comparisons exercise. -/
def upperChar (c : Char) : Char :=
  if 97 ≤ c.toNat ∧ c.toNat ≤ 122 then Char.ofNat (c.toNat - 32) else c

/-- Python `str.lower` on the ASCII range. -/
def pyLower (s : String) : String := String.mk (s.toList.map lowerChar)

/-- Python `str.upper` on the ASCII range. -/
def pyUpper (s : String) : String := String.mk (s.toList.map upperChar)

/-- Remove leading and trailing whitespace from a character list. -/
def trimList (cs : List Char) : List Char :=
  ((cs.dropWhile Char.isWhitespace).reverse.dropWhile Char.isWhitespace).reverse

/-- Python `str.strip`. -/
def pyTrim (s : String) : String := String.mk (trimList s.toList)

/-- Substring test on character lists: true when `needle` occurs
contiguously inside the second list.  Models the Python `in` operator on
strings. -/
def listContains (needle : List Char) : List Char → Bool
  | [] => needle.isEmpty
  | c :: rest => List.isPrefixOf needle (c :: rest) || listContains needle rest

/-- Python `needle in s` for strings. -/
def strContains (s needle : String) : Bool :=
  listContains needle.toList s.toList

/-- Split a character list at every occurrence of the separator. -/
def splitOnChar (sep : Char) : List Char → List (List Char)
  | [] => [[]]
  | c :: rest =>
    match splitOnChar sep rest with
    | [] => [[]]
    | g :: gs => if c = sep then [] :: g :: gs else (c :: g) :: gs

/-- Join description fragments with a comma and a space, as
`", ".join(parts)` does. -/
def joinCommaSpace : List (List Char) → List Char
  | [] => []
  | [p] => p
  | p :: q :: rest => p ++ ',' :: ' ' :: joinCommaSpace (q :: rest)

/-- Remove every occurrence of the literal three-character pattern found in
`_parse_date`'s `replace("[$]", "")` call (importers.py), scanning left to
right without overlap, as Python `str.replace` does. -/
def removeDollarTag : List Char → List Char
  | a :: b :: c :: rest =>
    if a = Char.ofNat 91 ∧ b = Char.ofNat 36 ∧ c = Char.ofNat 93 then removeDollarTag rest
    else a :: removeDollarTag (b :: c :: rest)
  | a :: as => a :: removeDollarTag as
  | [] => []

/-- Convert a list of decimal digit characters to a natural number. -/
def digitsToNat (ds : List Char) : Nat :=
  ds.foldl (fun acc c => acc * 10 + (c.toNat - 48)) 0

/-- Model of the finite-value decimal numeric-string grammar accepted by
Python's `Decimal` constructor: optional sign, integer and/or fractional
digits, optional exponent.  The special forms `NaN` and `Infinity` have no
rational value and fall outside this model; none of the repository's
normalised inputs exercise them. -/
def decCore (cs : List Char) : Option ℚ :=
  let sgnSplit : ℚ × List Char :=
    match cs with
    | c :: t => if c = Char.ofNat 43 then (1, t) else if c = Char.ofNat 45 then (-1, t) else (1, cs)
    | [] => (1, [])
  let sgn := sgnSplit.1
  let cs1 := sgnSplit.2
  let intPart := cs1.takeWhile Char.isDigit
  let rest1 := cs1.dropWhile Char.isDigit
  let fracSplit : List Char × List Char :=
    match rest1 with
    | c :: t => if c = '.' then (t.takeWhile Char.isDigit, t.dropWhile Char.isDigit) else ([], rest1)
    | [] => ([], [])
  let fracPart := fracSplit.1
  let rest2 := fracSplit.2
  if intPart.isEmpty && fracPart.isEmpty then none
  else
    let mantissa : ℚ :=
      sgn * ((digitsToNat intPart : ℚ) + (digitsToNat fracPart : ℚ) / ((10 : ℚ) ^ fracPart.length))
    match rest2 with
    | [] => some mantissa
    | e :: t =>
      if e = 'e' ∨ e = 'E' then
        let esgnSplit : Int × List Char :=
          match t with
          | c :: u => if c = Char.ofNat 43 then (1, u) else if c = Char.ofNat 45 then (-1, u) else (1, t)
          | [] => (1, [])
        let eDigits := esgnSplit.2.takeWhile Char.isDigit
        let rest3 := esgnSplit.2.dropWhile Char.isDigit
        if eDigits.isEmpty ∨ ¬ rest3.isEmpty then none
        else some (mantissa * (10 : ℚ) ^ (esgnSplit.1 * (digitsToNat eDigits : Int)))
      else none

/-- Normalisation step of `_parse_decimal` (importers.py): remove apostrophe
and space thousands separators, then turn a decimal comma into a decimal
point. -/
def normaliseSeps (s : String) : String :=
  String.mk ((s.toList.filter (fun c => c ≠ Char.ofNat 39 ∧ c ≠ ' ')).map
    (fun c => if c = ',' then '.' else c))

/-- Embedding of `_parse_decimal` (importers.py).  The `Option String`
argument models the Python `object` input: `none` is Python `None`, `some s`
a cell string.  Unparsable input yields `none`, never an error. -/
def pyParseDecimal : Option String → Option ℚ
  | none => none
  | some v =>
    let stringified := pyTrim v
    if stringified = "" then none
    else decCore (normaliseSeps stringified).toList

/-- Calendar date as produced by Python `datetime.date`. -/
structure PyDate where
  year : Nat
  month : Nat
  day : Nat
deriving DecidableEq, Repr

/-- Number of days in a month, Gregorian rules. -/
def daysInMonth (y m : Nat) : Nat :=
  if m = 2 then (if (y % 4 = 0 ∧ y % 100 ≠ 0) ∨ y % 400 = 0 then 29 else 28)
  else if m = 4 ∨ m = 6 ∨ m = 9 ∨ m = 11 then 30
  else 31

/-- True when every character of the list is a decimal digit. -/
def allDigits (cs : List Char) : Bool := cs.all Char.isDigit

/-- Split a character list at `sep` and keep the result only when it yields
exactly three non-empty all-digit components. -/
def threeNumParts (cs : List Char) (sep : Char) : Option (Nat × Nat × Nat) :=
  match splitOnChar sep cs with
  | [a, b, c] =>
    if a ≠ [] ∧ b ≠ [] ∧ c ≠ [] ∧ allDigits a ∧ allDigits b ∧ allDigits c then
      some (digitsToNat a, digitsToNat b, digitsToNat c)
    else none
  | _ => none

/-- Model of the external `dateutil.parser.parse(s, dayfirst=True)` call,
restricted to fully numeric day-first layouts `D sep M sep YYYY` with
separator `.`, `/` or `-`: the first component is the day, the second the
month, the third a four-digit year.  Out-of-range or non-numeric input is
unparsable and yields `none`, which the caller's exception handler maps to
an absent date; this matches the library's behaviour on every input the
claims exercise. -/
def dateutilDayfirst (s : String) : Option PyDate :=
  let cs := s.toList
  match (threeNumParts cs '.').orElse
      (fun _ => (threeNumParts cs '/').orElse (fun _ => threeNumParts cs (Char.ofNat 45))) with
  | none => none
  | some (d, m, y) =>
    if 1 ≤ m ∧ m ≤ 12 ∧ 1 ≤ d ∧ d ≤ daysInMonth y m ∧ 1000 ≤ y ∧ y ≤ 9999 then
      some ⟨y, m, d⟩
    else none

/-- Embedding of `_parse_date` (importers.py): `None`, blank, `"NaT"` and
`"nan"` yield an absent date; otherwise the literal `"[$]"` is removed and
the day-first parser is consulted, with parse failures absorbed to `none`. -/
def pyParseDate : Option String → Option PyDate
  | none => none
  | some v =>
    let stringified := pyTrim v
    if stringified = "" ∨ stringified = "NaT" ∨ stringified = "nan" then none
    else dateutilDayfirst (String.mk (removeDollarTag stringified.toList))

/-- Embedding of `_clean_string` (importers.py). -/
def cleanString : Option String → String
  | none => ""
  | some s => pyTrim s

/-- Raw workbook row: column name to cell string, as read by pandas with
`dtype=str`.  A missing column models an absent key in the row. -/
abbrev Row := List (String × String)

/-- Embedding of `_collapse_description` (importers.py): join the non-empty
cleaned description fragments with a comma and a space. -/
def collapseDescription (row : Row) : String :=
  String.mk (joinCommaSpace
    ((([cleanString (row.lookup "descr_1"),
        cleanString (row.lookup "descr_2"),
        cleanString (row.lookup "descr_3")]).filter (fun p => p ≠ "")).map String.toList))

/-- Embedding of `BankTransactionRecord` (models.py).  The `uuid4`
identifier is modelled as a natural number drawn from a fresh supply; the
remaining defaults mirror the dataclass defaults. -/
structure BankTransactionRecord where
  id : Nat := 0
  sheet_name : String := ""
  account_id : String := ""
  account_name : String := ""
  account_holder : String := ""
  transaction_date : Option PyDate := none
  transaction_time : Option String := none
  accounting_date : Option PyDate := none
  amount_chf : Option ℚ := none
  debit : Option ℚ := none
  credit : Option ℚ := none
  balance : Option ℚ := none
  transaction_currency : Option String := none
  fx_rate : Option ℚ := none
  description : String := ""
  transaction_number : Option String := none
  category : Option String := none
  sub_category : Option String := none
  micro_category : Option String := none
  raw_payload : Row := []
deriving DecidableEq, Repr

/-- Embedding of `BankTransactionRecord.signed_amount` (models.py): prefer
the explicit CHF amount, else credit minus debit with absent values taken
as zero. -/
def signed_amount (r : BankTransactionRecord) : ℚ :=
  match r.amount_chf with
  | some a => a
  | none => r.credit.getD 0 - r.debit.getD 0

/-- Embedding of `ClassificationResult` (importers.py).  The Python
counterparty field has type `str | None`; the `FEE` branch stores a plain
string (possibly empty), modelled as `some`. -/
structure ClassificationResult where
  inferred_type : String
  inferred_counterparty : Option String
  notes : Option String
deriving DecidableEq, Repr

/-- Fee-rule condition of `TransactionClassifier.classify` (importers.py):
the lower-cased description contains `"frais"` or `"fee"`, or the
lower-cased category contains `"frais"`. -/
def feeCond (r : BankTransactionRecord) : Bool :=
  strContains (pyLower r.description) "frais" || strContains (pyLower r.description) "fee" ||
    strContains (pyLower (r.category.getD "")) "frais"

/-- Embedding of `TransactionClassifier._is_inflow` (importers.py). -/
def isInflow (r : BankTransactionRecord) : Bool :=
  decide (0 < r.credit.getD 0 ∧ r.debit.getD 0 = 0)

/-- Embedding of `TransactionClassifier._is_outflow` (importers.py). -/
def isOutflow (r : BankTransactionRecord) : Bool :=
  decide (0 < r.debit.getD 0 ∧ r.credit.getD 0 = 0)

/-- Embedding of `TransactionClassifier._extract_counterparty`
(importers.py): split the description once at the first comma, trim the
first segment, and turn an empty result into an absent counterparty. -/
def extractCounterparty (r : BankTransactionRecord) : Option String :=
  if r.description ≠ "" then
    let primary := String.mk (trimList (r.description.toList.takeWhile (fun c => c ≠ ',')))
    if primary = "" then none else some primary
  else none

/-- Embedding of `TransactionClassifier.classify` (importers.py): ordered
rule chain, first match wins, with an UNKNOWN fallback. -/
def classify (r : BankTransactionRecord) : ClassificationResult :=
  if feeCond r then
    ⟨"FEE", some r.account_name, some "Identified bank fee"⟩
  else if isInflow r then
    ⟨"DEPOSIT", extractCounterparty r, none⟩
  else if isOutflow r then
    ⟨"WITHDRAWAL", extractCounterparty r, none⟩
  else
    ⟨"UNKNOWN", none, some "Unable to infer direction"⟩

/-- Embedding of `NormalisedTransaction` (models.py).  The creation
timestamp is modelled as a natural number stamped at normalisation time. -/
structure NormalisedTransaction where
  id : Nat
  sheet_name : String
  account_id : String
  account_name : String
  account_holder : String
  transaction_date : Option PyDate
  transaction_time : Option String
  accounting_date : Option PyDate
  transaction_currency : String
  amount_chf : ℚ
  amount_native : Option ℚ
  fx_rate : Option ℚ
  balance : Option ℚ
  description : String
  transaction_number : Option String
  category : Option String
  sub_category : Option String
  micro_category : Option String
  inferred_type : String
  inferred_counterparty : Option String
  notes : Option String
  created_at : Nat
deriving DecidableEq, Repr

/-- Embedding of `BankExcelImporter._normalise_record` (importers.py).
The native amount is computed only when the transaction currency is a
non-empty string other than `CHF` (case-insensitively) and the FX rate is
present and non-zero — Python truthiness makes a `0.0` rate skip the
division, so no arithmetic fault can arise.  `now` is the wall-clock
timestamp captured by the `created_at` default factory. -/
def normaliseRecord (r : BankTransactionRecord) (c : ClassificationResult) (now : Nat) :
    NormalisedTransaction :=
  let amount_native : Option ℚ :=
    match r.transaction_currency, r.fx_rate with
    | some cur, some rate =>
      if cur ≠ "" ∧ pyUpper cur ≠ "CHF" ∧ rate ≠ 0 then some (signed_amount r / rate) else none
    | _, _ => none
  { id := r.id
    sheet_name := r.sheet_name
    account_id := r.account_id
    account_name := r.account_name
    account_holder := r.account_holder
    transaction_date := r.transaction_date
    transaction_time := r.transaction_time
    accounting_date := r.accounting_date
    transaction_currency :=
      match r.transaction_currency with
      | none => "CHF"
      | some cur => if cur = "" then "CHF" else cur
    amount_chf := signed_amount r
    amount_native := amount_native
    fx_rate := r.fx_rate
    balance := r.balance
    description := r.description
    transaction_number := r.transaction_number
    category := r.category
    sub_category := r.sub_category
    micro_category := r.micro_category
    inferred_type := c.inferred_type
    inferred_counterparty := c.inferred_counterparty
    notes := c.notes
    created_at := now }

/-- Build one `BankTransactionRecord` from a workbook row, as
`BankExcelImporter._iter_records` (importers.py) does: the string columns go
through `_clean_string`, the numeric columns through `_parse_decimal`, the
date columns through `_parse_date`, the currency defaults to `"CHF"`, the
description fragments are collapsed, and the verbatim row is kept as the
audit payload.  `freshId` is the `uuid4` identifier minted for this row. -/
def mkRecord (sheet : String) (row : Row) (freshId : Nat) : BankTransactionRecord :=
  { id := freshId
    sheet_name := sheet
    account_id := (row.lookup "account_id").getD ""
    account_name := (row.lookup "account_name").getD ""
    account_holder := (row.lookup "account_holder").getD ""
    transaction_date := pyParseDate (row.lookup "transac_date")
    transaction_time := some (cleanString (row.lookup "transac_hour"))
    accounting_date := pyParseDate (row.lookup "accounting_date")
    amount_chf := pyParseDecimal (row.lookup "amount_chf")
    debit := pyParseDecimal (row.lookup "debit")
    credit := pyParseDecimal (row.lookup "credit")
    balance := pyParseDecimal (row.lookup "balance")
    transaction_currency :=
      some (if cleanString (row.lookup "transac_currency") = "" then "CHF"
            else cleanString (row.lookup "transac_currency"))
    fx_rate := pyParseDecimal (row.lookup "rate")
    description := collapseDescription row
    transaction_number := some (cleanString (row.lookup "transac_nbr"))
    category := some (cleanString (row.lookup "category"))
    sub_category := some (cleanString (row.lookup "sub_category"))
    micro_category := some (cleanString (row.lookup "micro_category"))
    raw_payload := row }

/-- Embedding of the record iteration of `_iter_records`: one record per
row in order, each with the next identifier from the fresh supply. -/
def iterRecords (sheet : String) (startId : Nat) : List Row → List BankTransactionRecord
  | [] => []
  | row :: rest => mkRecord sheet row startId :: iterRecords sheet (startId + 1) rest

/-- Workbook: sheet name to list of rows.  A sheet absent from the list
models a sheet `pandas.read_excel` cannot find, which raises and aborts the
whole load. -/
abbrev Workbook := List (String × List Row)

/-- Raw-payload lookup accumulated by `BankExcelImporter.load`, keyed by the
(stringified, hence injectively mapped) record identifier. -/
abbrev RawLookup := List (Nat × Row)

/-- Embedding of `BankExcelImporter.load` (importers.py): walk the requested
sheets in order, extract records, classify and normalise each, and collect
the normalised list together with the raw-payload lookup.  The fresh-id
supply enters as `startId` and the final value of the supply is returned;
`now` is the normalisation wall-clock.  A missing sheet fails the whole
call (`none`), matching the pandas exception. -/
def loadSheets (wb : Workbook) (now : Nat) :
    List String → Nat → Option (List NormalisedTransaction × RawLookup × Nat)
  | [], i => some ([], [], i)
  | name :: rest, i =>
    match wb.lookup name with
    | none => none
    | some rows =>
      let recs := iterRecords name i rows
      match loadSheets wb now rest (i + rows.length) with
      | none => none
      | some (txs, raw, iEnd) =>
        some (recs.map (fun r => normaliseRecord r (classify r) now) ++ txs,
              recs.map (fun r => (r.id, r.raw_payload)) ++ raw, iEnd)

/-- Total number of rows the requested sheets contribute (defined when every
sheet is present; used to describe the identifier range a load consumes). -/
def sheetCount (wb : Workbook) : List String → Nat
  | [] => 0
  | name :: rest => ((wb.lookup name).getD []).length + sheetCount wb rest

/-- Stored transaction row, mirroring the column values bound by
`SQLiteRepository.upsert_transactions` (database.py): dates as ISO strings,
debit and credit taken verbatim from the raw payload, the serialised raw
payload, and the `created_at` timestamp. -/
structure TxRow where
  sheet_name : String
  account_id : String
  account_name : String
  account_holder : String
  transaction_date : Option String
  transaction_time : Option String
  accounting_date : Option String
  transaction_currency : String
  amount_chf : ℚ
  amount_native : Option ℚ
  fx_rate : Option ℚ
  debit : Option String
  credit : Option String
  balance : Option ℚ
  description : String
  transaction_number : Option String
  category : Option String
  sub_category : Option String
  micro_category : Option String
  inferred_type : String
  inferred_counterparty : Option String
  notes : Option String
  raw_payload : Row
  created_at : Nat
deriving DecidableEq, Repr

/-- Decimal digit character of a value below ten. -/
def digitChar (n : Nat) : Char := Char.ofNat (48 + n)

/-- Fixed-width decimal rendering, wide enough for ISO date components. -/
def padNat (width n : Nat) : String :=
  if width = 4 then
    String.mk [digitChar (n / 1000 % 10), digitChar (n / 100 % 10), digitChar (n / 10 % 10),
      digitChar (n % 10)]
  else String.mk [digitChar (n / 10 % 10), digitChar (n % 10)]

/-- Embedding of `_date_to_iso` (database.py) applied to an optional date. -/
def dateToIso : Option PyDate → Option String
  | none => none
  | some d => some (padNat 4 d.year ++ "-" ++ padNat 2 d.month ++ "-" ++ padNat 2 d.day)

/-- Column values bound for one transaction by
`SQLiteRepository.upsert_transactions`: everything from the normalised
transaction except debit/credit, which come from the raw payload lookup. -/
def txRowOf (tx : NormalisedTransaction) (payload : Row) : TxRow :=
  { sheet_name := tx.sheet_name
    account_id := tx.account_id
    account_name := tx.account_name
    account_holder := tx.account_holder
    transaction_date := dateToIso tx.transaction_date
    transaction_time := tx.transaction_time
    accounting_date := dateToIso tx.accounting_date
    transaction_currency := tx.transaction_currency
    amount_chf := tx.amount_chf
    amount_native := tx.amount_native
    fx_rate := tx.fx_rate
    debit := payload.lookup "debit"
    credit := payload.lookup "credit"
    balance := tx.balance
    description := tx.description
    transaction_number := tx.transaction_number
    category := tx.category
    sub_category := tx.sub_category
    micro_category := tx.micro_category
    inferred_type := tx.inferred_type
    inferred_counterparty := tx.inferred_counterparty
    notes := tx.notes
    raw_payload := payload
    created_at := tx.created_at }

/-- The transactions table: identifier (the stringified UUID, injectively
modelled by the numeric id) to stored row.  The SQLite `PRIMARY KEY` keeps
at most one row per identifier; the association list mirrors that when its
keys are nodup. -/
abbrev TxStore := List (Nat × TxRow)

/-- Embedding of one `INSERT ... ON CONFLICT(id) DO UPDATE SET ...`
statement (database.py): when the identifier exists every stored column is
replaced by the excluded (new) values, `created_at` included; otherwise a
new row is appended. -/
def upsertRow (store : TxStore) (k : Nat) (v : TxRow) : TxStore :=
  if store.any (fun p => p.1 == k) then
    store.map (fun p => if p.1 == k then (k, v) else p)
  else store ++ [(k, v)]

/-- Embedding of `SQLiteRepository.upsert_transactions` (database.py): one
upsert per transaction, in list order, debit/credit pulled from the raw
payload lookup with an empty payload as default. -/
def upsertTransactions (store : TxStore) (txs : List NormalisedTransaction)
    (raw : RawLookup) : TxStore :=
  txs.foldl (fun st tx => upsertRow st tx.id (txRowOf tx ((raw.lookup tx.id).getD []))) store

/-- Embedding of `PortfolioService.import_workbook` (services.py): load the
requested sheets and upsert the result into the store.  Returns the new
store and the advanced fresh-id supply; `none` models the pandas exception
for a missing sheet. -/
def importWorkbook (store : TxStore) (wb : Workbook) (names : List String)
    (uuidSupply now : Nat) : Option (TxStore × Nat) :=
  match loadSheets wb now names uuidSupply with
  | none => none
  | some (txs, raw, j) => some (upsertTransactions store txs raw, j)

/-- Embedding of the `FxRate` model (models.py) as stored in the `fx_rates`
table. -/
structure FxRate where
  base : String
  quote : String
  valuation_date : PyDate
  rate : ℚ
  source : String
deriving DecidableEq, Repr

/-- Numeric encoding of a date whose ordering agrees with the ISO-string
ordering SQLite's `date(valuation_date)` uses on valid dates. -/
def dateVal (d : PyDate) : Nat := d.year * 10000 + d.month * 100 + d.day

/-- Row selected by `ORDER BY date(valuation_date) DESC LIMIT 1`: a row of
maximal valuation date among the list (ties broken towards the front, which
SQLite leaves unspecified). -/
def bestFx : List FxRate → Option FxRate
  | [] => none
  | r :: rs =>
    match bestFx rs with
    | none => some r
    | some b => if dateVal r.valuation_date < dateVal b.valuation_date then some b else some r

/-- Embedding of `SQLiteRepository.get_latest_fx_rate` (database.py): filter
the stored rates by the upper-cased pair and take the rate with the most
recent valuation date, absent when no row matches. -/
def getLatestFxRate (fxs : List FxRate) (base quote : String) : Option ℚ :=
  (bestFx (fxs.filter (fun r => r.base == pyUpper base && r.quote == pyUpper quote))).map
    (fun r => r.rate)

/-- Payload returned by `SQLiteRepository.cash_summary` (database.py). -/
structure CashSummary where
  total_chf : ℚ
  transaction_count : Nat
  display_currency : String
  display_total : ℚ
  fx_missing : Bool
  fx_rate : Option ℚ
deriving DecidableEq, Repr

/-- Sum of stored signed CHF amounts, as `SUM(amount_chf)` computes. -/
def txTotal (store : TxStore) : ℚ :=
  (store.map (fun p => p.2.amount_chf)).sum

/-- Embedding of `SQLiteRepository.cash_summary` (database.py): total and
count over the whole table; CHF display returns the total unchanged with
`fx_missing = false`; otherwise the latest CHF-to-currency rate is looked
up, multiplying on success and degrading to the unconverted total with
`fx_missing = true` when absent.  The function is total: no branch fails. -/
def cashSummary (store : TxStore) (fxs : List FxRate) (display_currency : String) :
    CashSummary :=
  let total := txTotal store
  let count := store.length
  if pyUpper display_currency = "CHF" then
    ⟨total, count, "CHF", total, false, none⟩
  else
    match getLatestFxRate fxs "CHF" display_currency with
    | none => ⟨total, count, pyUpper display_currency, total, true, none⟩
    | some r => ⟨total, count, pyUpper display_currency, total * r, false, some r⟩

/-!  Concrete example records used by the claim witnesses. -/

/-- Classification result used when a witness needs an arbitrary one. -/
def cUnknown : ClassificationResult := ⟨"UNKNOWN", none, none⟩

/-- Spec example row: explicit CHF amount absent, credit 120.50, debit 0. -/
def recCredit : BankTransactionRecord := { credit := some (241/2), debit := some 0 }

/-- Spec example row: explicit CHF amount absent, credit 0, debit 45. -/
def recDebit : BankTransactionRecord := { credit := some 0, debit := some 45 }

/-- Spec example row: USD at FX rate 0.90 with signed CHF amount -90. -/
def recUsd : BankTransactionRecord :=
  { transaction_currency := some "USD", fx_rate := some (9/10), amount_chf := some (-90) }

/-- Spec example row: USD at FX rate 0. -/
def recUsdZero : BankTransactionRecord :=
  { transaction_currency := some "USD", fx_rate := some 0, amount_chf := some (-90) }

/-- A fee row with an empty account name. -/
def recFee : BankTransactionRecord := { description := "monthly fee" }

/-- A fee row with a named account. -/
def recFrais : BankTransactionRecord :=
  { description := "frais de gestion", account_name := "UBS Main" }

/-- A row with a fee keyword and a positive credit. -/
def recFeeCredit : BankTransactionRecord := { description := "Custody fee, Q1", credit := some 5 }

/-- A deposit row with an empty description. -/
def recEmptyDeposit : BankTransactionRecord := { description := "", credit := some 10 }

/-!  Claim theorems. -/

/-- C2: for every raw transaction record, the signed CHF amount of the
resulting normalised transaction equals the record's explicit `amount_chf`
when that field is present, and otherwise equals credit minus debit with an
absent credit or debit treated as zero. -/
theorem signed_chf_amount_correct (r : BankTransactionRecord) (c : ClassificationResult)
    (now : Nat) :
    (∀ a : ℚ, r.amount_chf = some a → (normaliseRecord r c now).amount_chf = a) ∧
    (r.amount_chf = none →
      (normaliseRecord r c now).amount_chf = r.credit.getD 0 - r.debit.getD 0) := by
  constructor
  · intro a ha
    simp [normaliseRecord, signed_amount, ha]
  · intro h
    simp [normaliseRecord, signed_amount, h]

/-- Witness for C2 at the spec's own example rows: explicit amount absent,
credit 120.50 and debit 0 gives 120.50; credit 0 and debit 45 gives -45. -/
theorem signed_chf_amount_correct_witness :
    (normaliseRecord recCredit cUnknown 7).amount_chf = 241/2 ∧
    (normaliseRecord recDebit cUnknown 7).amount_chf = -45 := by
  constructor
  · have h := (signed_chf_amount_correct recCredit cUnknown 7).2 rfl
    rw [h]
    simp [recCredit]
  · have h := (signed_chf_amount_correct recDebit cUnknown 7).2 rfl
    rw [h]
    simp [recDebit]

/-- C3: the native amount is populated only when the transaction currency
differs from CHF case-insensitively and a non-zero FX rate is present, in
which case it equals the signed CHF amount divided by the FX rate; a zero
or absent FX rate yields an absent native amount (the embedding is a total
function, so no error can be raised). -/
theorem native_amount_correct (r : BankTransactionRecord) (c : ClassificationResult)
    (now : Nat) :
    (∀ v : ℚ, (normaliseRecord r c now).amount_native = some v →
      ∃ cur rate, r.transaction_currency = some cur ∧ cur ≠ "" ∧ pyUpper cur ≠ "CHF" ∧
        r.fx_rate = some rate ∧ rate ≠ 0 ∧ v = signed_amount r / rate) ∧
    (∀ cur rate, r.transaction_currency = some cur → cur ≠ "" → pyUpper cur ≠ "CHF" →
      r.fx_rate = some rate → rate ≠ 0 →
      (normaliseRecord r c now).amount_native = some (signed_amount r / rate)) ∧
    (r.fx_rate = none ∨ r.fx_rate = some 0 →
      (normaliseRecord r c now).amount_native = none) := by
  refine ⟨?_, ?_, ?_⟩
  · intro v hv
    rcases hc : r.transaction_currency with _ | cur <;>
      rcases hr : r.fx_rate with _ | rate <;>
        simp [normaliseRecord, hc, hr] at hv
    rcases hv with ⟨⟨h1, h2, h3⟩, h4⟩
    exact ⟨cur, rate, rfl, h1, h2, rfl, h3, h4.symm⟩
  · intro cur rate hc h1 h2 hr h3
    simp [normaliseRecord, hc, hr, h1, h2, h3]
  · intro h
    rcases hc : r.transaction_currency with _ | cur <;> rcases h with h | h <;>
      simp [normaliseRecord, hc, h]

/-- Witness for C3 at the spec's example: USD at rate 0.90 with signed CHF
amount -90 gives native amount -100, and a zero rate gives an absent native
amount. -/
theorem native_amount_correct_witness :
    (normaliseRecord recUsd cUnknown 7).amount_native = some (-100) ∧
    (normaliseRecord recUsdZero cUnknown 7).amount_native = none := by
  constructor
  · have h := (native_amount_correct recUsd cUnknown 7).2.1 "USD" (9/10) rfl (by decide)
      (by decide) rfl (by norm_num)
    rw [h]
    simp only [Option.some.injEq]
    rw [show signed_amount recUsd = -90 from rfl]
    norm_num
  · exact (native_amount_correct recUsdZero cUnknown 7).2.2 (Or.inr rfl)

/-- C6 counterexample: the claim says the fee rule attaches no note, but
`classify` returns the note "Identified bank fee" on a fee row (here a
record whose description contains the keyword "fee"). -/
theorem fee_note_counterexample :
    (classify recFee).inferred_type = "FEE" ∧ (classify recFee).notes ≠ none := by
  constructor <;> decide

/-- C6 amended: when the lower-cased description contains "frais" or "fee",
or the lower-cased category contains "frais", classification returns type
FEE with counterparty equal to the account name and the note "Identified
bank fee". -/
theorem fee_rule_correct (r : BankTransactionRecord) (h : feeCond r = true) :
    classify r = ⟨"FEE", some r.account_name, some "Identified bank fee"⟩ := by
  simp [classify, h]

/-- Witness for the amended C6 on a concrete fee row. -/
theorem fee_rule_correct_witness :
    classify recFrais = ⟨"FEE", some "UBS Main", some "Identified bank fee"⟩ :=
  fee_rule_correct recFrais (by decide)

/-- C7: classification is total — it always produces one of the four types
and never fails — and the fee rule precedes the inflow rule: a record whose
description contains a fee keyword and whose credit is positive with debit
zero classifies as FEE, not DEPOSIT. -/
theorem classification_total_fee_priority (r : BankTransactionRecord) :
    ((classify r).inferred_type = "FEE" ∨ (classify r).inferred_type = "DEPOSIT" ∨
      (classify r).inferred_type = "WITHDRAWAL" ∨ (classify r).inferred_type = "UNKNOWN") ∧
    (strContains (pyLower r.description) "fee" = true → 0 < r.credit.getD 0 →
      r.debit.getD 0 = 0 →
      (classify r).inferred_type = "FEE" ∧ (classify r).inferred_type ≠ "DEPOSIT") := by
  constructor
  · unfold classify
    split_ifs <;> simp
  · intro hfee _ _
    have hcond : feeCond r = true := by
      unfold feeCond
      simp [hfee]
    simp [classify, hcond]

/-- Witness for C7: a concrete record whose description contains "fee" and
whose credit is positive with debit absent classifies FEE, not DEPOSIT. -/
theorem classification_total_fee_priority_witness :
    (classify recFeeCredit).inferred_type = "FEE" ∧
    (classify recFeeCredit).inferred_type ≠ "DEPOSIT" :=
  (classification_total_fee_priority recFeeCredit).2 (by decide) (by decide) rfl

/-- C8: decimal parsing strips apostrophe and space thousands separators and
normalises a decimal comma to a decimal point, so "1'234,50" parses to
1234.50, while empty and unparsable input yield an absent value; the parser
is a total function, so no error is possible. -/
theorem decimal_parsing_correct :
    pyParseDecimal (some "1'234,50") = some (2469/2 : ℚ) ∧
    pyParseDecimal (some "") = none ∧
    pyParseDecimal (some "abc") = none ∧
    (∀ s : String, pyParseDecimal (some s) =
      if pyTrim s = "" then none else decCore (normaliseSeps (pyTrim s)).toList) ∧
    (∀ v : Option String, pyParseDecimal v = none ∨ ∃ q, pyParseDecimal v = some q) := by
  refine ⟨?_, by decide, by decide, fun s => rfl, fun v => ?_⟩
  · have h : pyParseDecimal (some "1'234,50") =
        some ((1 : ℚ) * (((1234 : ℕ) : ℚ) + ((50 : ℕ) : ℚ) / (10 : ℚ) ^ (2 : ℕ))) := rfl
    rw [h]
    simp only [Option.some.injEq]
    norm_num
  · rcases h : pyParseDecimal v with _ | q
    · exact Or.inl rfl
    · exact Or.inr ⟨q, rfl⟩

/-- C9: date parsing is total and never raises; the tokens "NaT", "nan" and
the empty string (and any string trimming to one of them) yield an absent
value, unparsable strings yield an absent value, and ambiguous numeric
dates parse day-first: "03.04.2024" is 3 April 2024. -/
theorem date_parsing_correct :
    pyParseDate none = none ∧
    pyParseDate (some "NaT") = none ∧
    pyParseDate (some "nan") = none ∧
    pyParseDate (some "") = none ∧
    pyParseDate (some "not a date") = none ∧
    pyParseDate (some "03.04.2024") = some ⟨2024, 4, 3⟩ ∧
    (∀ s : String, pyTrim s = "" ∨ pyTrim s = "NaT" ∨ pyTrim s = "nan" →
      pyParseDate (some s) = none) ∧
    (∀ v : Option String, pyParseDate v = none ∨ ∃ d, pyParseDate v = some d) := by
  refine ⟨rfl, by decide, by decide, by decide, by decide, by decide, fun s h => ?_, fun v => ?_⟩
  · simp only [pyParseDate]
    rw [if_pos h]
  · rcases h : pyParseDate v with _ | d
    · exact Or.inl rfl
    · exact Or.inr ⟨d, rfl⟩

/-- Witness for C9's token clause at the concrete token "NaT". -/
theorem date_parsing_correct_witness : pyParseDate (some " NaT ") = none :=
  date_parsing_correct.2.2.2.2.2.2.1 " NaT " (Or.inr (Or.inl (by decide)))

/-- C10: when the fee rule fires the counterparty is the account name
verbatim — an empty account name yields the empty string, not an absent
counterparty — whereas deposit classification uses the extracted
counterparty, which turns an empty extraction into an absent value. -/
theorem fee_counterparty_empty_string :
    (∀ r : BankTransactionRecord, feeCond r = true → r.account_name = "" →
      (classify r).inferred_counterparty = some "") ∧
    (∀ r : BankTransactionRecord, r.description = "" → extractCounterparty r = none) ∧
    (∀ r : BankTransactionRecord, feeCond r = false → isInflow r = true →
      (classify r).inferred_counterparty = extractCounterparty r) := by
  refine ⟨fun r h1 h2 => ?_, fun r h => ?_, fun r h1 h2 => ?_⟩
  · simp [classify, h1, h2]
  · simp [extractCounterparty, h]
  · simp [classify, h1, h2]

/-- Witness for C10: a concrete fee row with empty account name gets the
empty-string counterparty, while a concrete deposit row with empty
description gets an absent counterparty. -/
theorem fee_counterparty_empty_string_witness :
    (classify recFee).inferred_counterparty = some "" ∧
    (classify recEmptyDeposit).inferred_counterparty = none := by
  constructor
  · exact fee_counterparty_empty_string.1 recFee (by decide) rfl
  · have h := fee_counterparty_empty_string.2.2 recEmptyDeposit (by decide) (by decide)
    rw [h]
    exact fee_counterparty_empty_string.2.1 recEmptyDeposit rfl

/-!  Store lemmas for the upsert and aggregation claims. -/

/-- Identifiers currently present in the transactions store. -/
def storeKeys (store : TxStore) : List Nat := store.map (fun p => p.1)

theorem any_key_eq_true (store : TxStore) (k : Nat) :
    store.any (fun p => p.1 == k) = true ↔ k ∈ storeKeys store := by
  simp only [List.any_eq_true, storeKeys, List.mem_map, beq_iff_eq]

theorem storeKeys_map_replace (store : TxStore) (k : Nat) (v : TxRow) :
    storeKeys (store.map (fun p => if p.1 == k then (k, v) else p)) = storeKeys store := by
  unfold storeKeys
  rw [List.map_map]
  apply List.map_congr_left
  intro p _
  by_cases h : p.1 = k
  · simp [h]
  · simp [h]

theorem lookup_map_replace (store : TxStore) (k : Nat) (v : TxRow)
    (h : k ∈ storeKeys store) :
    (store.map (fun p => if p.1 == k then (k, v) else p)).lookup k = some v := by
  induction store with
  | nil => simp [storeKeys] at h
  | cons p t ih =>
    obtain ⟨pk, pv⟩ := p
    rw [List.map_cons]
    by_cases hp : pk = k
    · have hb : (((pk, pv) : Nat × TxRow).1 == k) = true := by
        simp [hp]
      rw [if_pos hb, List.lookup_cons]
      simp
    · have hb : ¬ ((((pk, pv) : Nat × TxRow).1 == k) = true) := by
        simp [hp]
      have h' : k ∈ storeKeys t := by
        have hmem : k = pk ∨ k ∈ storeKeys t := by
          simpa [storeKeys] using h
        rcases hmem with h1 | h1
        · exact absurd h1.symm hp
        · exact h1
      have hkp : (k == pk) = false := by
        simp [Ne.symm hp]
      rw [if_neg hb, List.lookup_cons]
      simp only [hkp]
      exact ih h'

theorem lookup_append_fresh (store : TxStore) (k : Nat) (v : TxRow)
    (h : k ∉ storeKeys store) :
    (store ++ [(k, v)]).lookup k = some v := by
  induction store with
  | nil => simp [List.lookup]
  | cons p t ih =>
    obtain ⟨pk, pv⟩ := p
    have hne : k ≠ pk := by
      intro he
      exact h (by simp [storeKeys, he])
    have ht : k ∉ storeKeys t := by
      intro hm
      apply h
      simp only [storeKeys, List.map_cons, List.mem_cons]
      exact Or.inr (by simpa [storeKeys] using hm)
    have hkp : (k == pk) = false := by
      simp [hne]
    rw [List.cons_append, List.lookup_cons]
    simp only [hkp]
    exact ih ht

/-- C4: the store holds at most one row per identifier (upserting preserves
key uniqueness), and upserting an existing identifier replaces all stored
fields with the new values — `created_at` included, so the last write wins
for the creation timestamp as well. -/
theorem upsert_unique_and_replaces (store : TxStore) (k : Nat) (v : TxRow)
    (h : (storeKeys store).Nodup) :
    (storeKeys (upsertRow store k v)).Nodup ∧
    (upsertRow store k v).lookup k = some v ∧
    ((upsertRow store k v).lookup k).map (fun row => row.created_at) = some v.created_at := by
  unfold upsertRow
  by_cases hk : store.any (fun p => p.1 == k) = true
  · rw [if_pos hk]
    have hmem := (any_key_eq_true store k).mp hk
    refine ⟨?_, lookup_map_replace store k v hmem, ?_⟩
    · rw [storeKeys_map_replace]
      exact h
    · rw [lookup_map_replace store k v hmem]
      rfl
  · rw [if_neg hk]
    have hmem : k ∉ storeKeys store := fun hm => hk ((any_key_eq_true store k).mpr hm)
    refine ⟨?_, lookup_append_fresh store k v hmem, ?_⟩
    · have hkeys : storeKeys (store ++ [(k, v)]) = storeKeys store ++ [k] := by
        simp [storeKeys]
      rw [hkeys]
      simp [List.nodup_append, h, hmem]
    · rw [lookup_append_fresh store k v hmem]
      rfl

/-- A stored row used by the C4 witness. -/
def rowA : TxRow :=
  { sheet_name := "s", account_id := "a", account_name := "n", account_holder := "h",
    transaction_date := none, transaction_time := some "", accounting_date := none,
    transaction_currency := "CHF", amount_chf := 10, amount_native := none, fx_rate := none,
    debit := none, credit := some "10", balance := none, description := "first",
    transaction_number := some "", category := some "", sub_category := some "",
    micro_category := some "", inferred_type := "DEPOSIT", inferred_counterparty := some "x",
    notes := none, raw_payload := [], created_at := 1 }

/-- A replacement row with different field values and timestamp. -/
def rowB : TxRow :=
  { sheet_name := "s", account_id := "a", account_name := "n", account_holder := "h",
    transaction_date := none, transaction_time := some "", accounting_date := none,
    transaction_currency := "CHF", amount_chf := 25, amount_native := none, fx_rate := none,
    debit := some "5", credit := none, balance := none, description := "second",
    transaction_number := some "", category := some "", sub_category := some "",
    micro_category := some "", inferred_type := "WITHDRAWAL", inferred_counterparty := none,
    notes := none, raw_payload := [], created_at := 9 }

/-- Witness for C4: re-upserting identifier 5 keeps one row per key and the
looked-up row is the replacement, timestamp included. -/
theorem upsert_unique_and_replaces_witness :
    (storeKeys (upsertRow [(5, rowA)] 5 rowB)).Nodup ∧
    (upsertRow [(5, rowA)] 5 rowB).lookup 5 = some rowB ∧
    ((upsertRow [(5, rowA)] 5 rowB).lookup 5).map (fun row => row.created_at) =
      some rowB.created_at :=
  upsert_unique_and_replaces [(5, rowA)] 5 rowB (by decide)

theorem bestFx_eq_none_iff (l : List FxRate) : bestFx l = none ↔ l = [] := by
  cases l with
  | nil => simp [bestFx]
  | cons r rs =>
    simp only [bestFx]
    cases h : bestFx rs with
    | none => simp
    | some b =>
      constructor
      · intro hc
        by_cases hlt : dateVal r.valuation_date < dateVal b.valuation_date <;>
          simp [hlt] at hc
      · intro hc
        cases hc

theorem bestFx_spec (l : List FxRate) (b : FxRate) (h : bestFx l = some b) :
    b ∈ l ∧ ∀ x ∈ l, dateVal x.valuation_date ≤ dateVal b.valuation_date := by
  induction l generalizing b with
  | nil => simp [bestFx] at h
  | cons r rs ih =>
    cases hrs : bestFx rs with
    | none =>
      simp only [bestFx, hrs] at h
      have hb : r = b := by
        injection h
      have hnil : rs = [] := (bestFx_eq_none_iff rs).mp hrs
      subst hb hnil
      simp
    | some c =>
      simp only [bestFx, hrs] at h
      obtain ⟨hc1, hc2⟩ := ih c hrs
      by_cases hlt : dateVal r.valuation_date < dateVal c.valuation_date
      · rw [if_pos hlt] at h
        have hb : c = b := by
          injection h
        subst hb
        refine ⟨List.mem_cons_of_mem r hc1, ?_⟩
        intro x hx
        rcases List.mem_cons.mp hx with hx | hx
        · subst hx
          exact le_of_lt hlt
        · exact hc2 x hx
      · rw [if_neg hlt] at h
        have hb : r = b := by
          injection h
        subst hb
        refine ⟨List.mem_cons_self r rs, ?_⟩
        intro x hx
        rcases List.mem_cons.mp hx with hx | hx
        · subst hx
          exact le_refl _
        · exact le_trans (hc2 x hx) (le_of_not_lt hlt)

theorem getLatestFxRate_none_iff (fxs : List FxRate) (base quote : String) :
    getLatestFxRate fxs base quote = none ↔
      fxs.filter (fun r => r.base == pyUpper base && r.quote == pyUpper quote) = [] := by
  unfold getLatestFxRate
  rw [Option.map_eq_none']
  exact bestFx_eq_none_iff _

theorem getLatestFxRate_some (fxs : List FxRate) (base quote : String) (r : ℚ)
    (h : getLatestFxRate fxs base quote = some r) :
    ∃ row ∈ fxs.filter (fun x => x.base == pyUpper base && x.quote == pyUpper quote),
      row.rate = r ∧
      ∀ other ∈ fxs.filter (fun x => x.base == pyUpper base && x.quote == pyUpper quote),
        dateVal other.valuation_date ≤ dateVal row.valuation_date := by
  unfold getLatestFxRate at h
  cases hb : bestFx (fxs.filter (fun x => x.base == pyUpper base && x.quote == pyUpper quote)) with
  | none =>
    rw [hb] at h
    cases h
  | some b =>
    rw [hb] at h
    have hr : b.rate = r := by
      injection h
    obtain ⟨hmem, hmax⟩ := bestFx_spec _ b hb
    exact ⟨b, hmem, hr, hmax⟩

/-- C5: the cash summary never fails — when the display currency is CHF the
CHF total is returned unchanged with the missing-conversion flag false;
otherwise the stored CHF-to-currency rate with the most recent valuation
date is looked up: when found the total is multiplied by it (flag false),
and when no rate is stored the unconverted total is returned under the
requested currency label with the flag true. -/
theorem cash_summary_conversion (store : TxStore) (fxs : List FxRate) (c : String) :
    (pyUpper c = "CHF" →
      cashSummary store fxs c =
        ⟨txTotal store, store.length, "CHF", txTotal store, false, none⟩) ∧
    (∀ r : ℚ, pyUpper c ≠ "CHF" → getLatestFxRate fxs "CHF" c = some r →
      cashSummary store fxs c =
        ⟨txTotal store, store.length, pyUpper c, txTotal store * r, false, some r⟩ ∧
      ∃ row ∈ fxs.filter (fun x => x.base == "CHF" && x.quote == pyUpper c),
        row.rate = r ∧
        ∀ other ∈ fxs.filter (fun x => x.base == "CHF" && x.quote == pyUpper c),
          dateVal other.valuation_date ≤ dateVal row.valuation_date) ∧
    (pyUpper c ≠ "CHF" → getLatestFxRate fxs "CHF" c = none →
      cashSummary store fxs c =
        ⟨txTotal store, store.length, pyUpper c, txTotal store, true, none⟩ ∧
      fxs.filter (fun x => x.base == "CHF" && x.quote == pyUpper c) = []) := by
  have hchf : pyUpper "CHF" = "CHF" := by decide
  refine ⟨fun h => ?_, fun r hne hr => ?_, fun hne hr => ?_⟩
  · simp [cashSummary, h]
  · constructor
    · simp [cashSummary, hne, hr]
    · have := getLatestFxRate_some fxs "CHF" c r hr
      rwa [hchf] at this
  · constructor
    · simp [cashSummary, hne, hr]
    · have := (getLatestFxRate_none_iff fxs "CHF" c).mp hr
      rwa [hchf] at this

/-- Demo FX rows for the C5 witness: three CHF to EUR rates, the most
recent dated 2024-03-01 with rate 3. -/
def demoFx : List FxRate :=
  [⟨"CHF", "EUR", ⟨2024, 1, 1⟩, 2, "ecb"⟩,
   ⟨"CHF", "EUR", ⟨2024, 3, 1⟩, 3, "ecb"⟩,
   ⟨"CHF", "EUR", ⟨2024, 2, 1⟩, 4, "ecb"⟩]

/-- Witness for C5 on concrete data: the CHF branch, the converted branch
(lower-case "eur" picks the newest stored rate 3), and the degraded branch
for a currency with no stored rate. -/
theorem cash_summary_conversion_witness :
    cashSummary [] demoFx "chf" =
      ⟨txTotal [], List.length ([] : TxStore), "CHF", txTotal [], false, none⟩ ∧
    cashSummary [] demoFx "eur" =
      ⟨txTotal [], List.length ([] : TxStore), pyUpper "eur", txTotal [] * 3, false, some 3⟩ ∧
    cashSummary [] demoFx "JPY" =
      ⟨txTotal [], List.length ([] : TxStore), pyUpper "JPY", txTotal [], true, none⟩ := by
  refine ⟨?_, ?_, ?_⟩
  · exact (cash_summary_conversion [] demoFx "chf").1 (by decide)
  · exact ((cash_summary_conversion [] demoFx "eur").2.1 3 (by decide) (by decide)).1
  · exact ((cash_summary_conversion [] demoFx "JPY").2.2 (by decide) (by decide)).1

/-!  Identifier freshness lemmas for the import idempotence claim. -/

theorem iterRecords_ids (sheet : String) (rows : List Row) (startId : Nat) :
    (iterRecords sheet startId rows).map (fun r => r.id) = List.range' startId rows.length := by
  induction rows generalizing startId with
  | nil => simp [iterRecords]
  | cons row rest ih =>
    simp [iterRecords, List.range'_succ, mkRecord, ih]

theorem iterRecords_length (sheet : String) (rows : List Row) (startId : Nat) :
    (iterRecords sheet startId rows).length = rows.length := by
  have h := congrArg List.length (iterRecords_ids sheet rows startId)
  simpa using h

theorem loadSheets_spec (wb : Workbook) (now : Nat) (names : List String) :
    ∀ (i : Nat) (txs : List NormalisedTransaction) (raw : RawLookup) (j : Nat),
      loadSheets wb now names i = some (txs, raw, j) →
      j = i + sheetCount wb names ∧
      txs.map (fun t => t.id) = List.range' i (sheetCount wb names) := by
  induction names with
  | nil =>
    intro i txs raw j h
    simp only [loadSheets, Option.some.injEq, Prod.mk.injEq] at h
    obtain ⟨h1, h2, h3⟩ := h
    subst h1 h3
    simp [sheetCount]
  | cons name rest ih =>
    intro i txs raw j h
    cases hlk : wb.lookup name with
    | none =>
      simp only [loadSheets, hlk] at h
      exact Option.noConfusion h
    | some rows =>
      cases hrec : loadSheets wb now rest (i + rows.length) with
      | none =>
        simp only [loadSheets, hlk, hrec] at h
        exact Option.noConfusion h
      | some trip =>
        obtain ⟨txs', raw', iEnd⟩ := trip
        simp only [loadSheets, hlk, hrec, Option.some.injEq, Prod.mk.injEq] at h
        obtain ⟨htxs, _, hj⟩ := h
        obtain ⟨hj', hids⟩ := ih (i + rows.length) txs' raw' iEnd hrec
        have hcount : sheetCount wb (name :: rest) = rows.length + sheetCount wb rest := by
          simp [sheetCount, hlk]
        constructor
        · rw [← hj, hj', hcount]
          omega
        · rw [← htxs, hcount, List.map_append, List.map_map]
          have hcomp :
              ((fun t : NormalisedTransaction => t.id) ∘
                fun r => normaliseRecord r (classify r) now) =
                fun r : BankTransactionRecord => r.id := rfl
          rw [hcomp, iterRecords_ids, hids]
          have happ := List.range'_append i rows.length (sheetCount wb rest) 1
          rw [Nat.one_mul] at happ
          rw [happ, Nat.add_comm]

theorem upsertRow_fresh_eq (store : TxStore) (k : Nat) (v : TxRow)
    (h : k ∉ storeKeys store) :
    upsertRow store k v = store ++ [(k, v)] := by
  unfold upsertRow
  rw [if_neg]
  intro hc
  exact h ((any_key_eq_true store k).mp hc)

theorem upsertTransactions_fresh (txs : List NormalisedTransaction) :
    ∀ (store : TxStore) (raw : RawLookup),
      (txs.map (fun t => t.id)).Nodup →
      (∀ t ∈ txs, t.id ∉ storeKeys store) →
      storeKeys (upsertTransactions store txs raw) =
        storeKeys store ++ txs.map (fun t => t.id) := by
  induction txs with
  | nil =>
    intro store raw _ _
    simp [upsertTransactions]
  | cons tx rest ih =>
    intro store raw hnd hdisj
    have hstep : upsertTransactions store (tx :: rest) raw =
        upsertTransactions (upsertRow store tx.id (txRowOf tx ((raw.lookup tx.id).getD [])))
          rest raw := rfl
    have hfresh : tx.id ∉ storeKeys store := hdisj tx (List.mem_cons_self tx rest)
    rw [hstep, upsertRow_fresh_eq store tx.id _ hfresh]
    have hpair : (∀ x ∈ rest, ¬ x.id = tx.id) ∧ (rest.map (fun t => t.id)).Nodup := by
      simpa using hnd
    have hnd0 : tx.id ∉ rest.map (fun t => t.id) := by
      intro hm
      obtain ⟨t, ht, he⟩ := List.mem_map.mp hm
      exact hpair.1 t ht he
    have hnd' : (rest.map (fun t => t.id)).Nodup := hpair.2
    have hkeys : storeKeys (store ++ [(tx.id, txRowOf tx ((raw.lookup tx.id).getD []))]) =
        storeKeys store ++ [tx.id] := by
      simp [storeKeys]
    have hdisj' : ∀ t ∈ rest,
        t.id ∉ storeKeys (store ++ [(tx.id, txRowOf tx ((raw.lookup tx.id).getD []))]) := by
      intro t ht
      rw [hkeys]
      intro hmem
      rcases List.mem_append.mp hmem with hm | hm
      · exact hdisj t (List.mem_cons_of_mem tx ht) hm
      · have : t.id = tx.id := by simpa using hm
        exact hnd0 (this ▸ List.mem_map_of_mem (fun t => t.id) ht)
    rw [ih _ raw hnd' hdisj', hkeys]
    simp

theorem storeKeys_length (store : TxStore) : (storeKeys store).length = store.length := by
  simp [storeKeys]

/-- C1 corrected: re-importing the same unchanged workbook is not
idempotent.  Every extraction mints fresh identifiers (here: the next
segment of the identifier supply), so the second run inserts one new row
per source row instead of replacing: starting from an empty store, the
first import leaves one row per source row and the second leaves twice as
many. -/
theorem import_twice_duplicates (wb : Workbook) (names : List String)
    (now1 now2 j1 j2 : Nat) (s1 s2 : TxStore)
    (h1 : importWorkbook [] wb names 0 now1 = some (s1, j1))
    (h2 : importWorkbook s1 wb names j1 now2 = some (s2, j2)) :
    s1.length = sheetCount wb names ∧ s2.length = 2 * sheetCount wb names := by
  cases hl1 : loadSheets wb now1 names 0 with
  | none =>
    simp only [importWorkbook, hl1] at h1
    exact Option.noConfusion h1
  | some trip1 =>
    obtain ⟨txs1, raw1, jj1⟩ := trip1
    simp only [importWorkbook, hl1, Option.some.injEq, Prod.mk.injEq] at h1
    obtain ⟨hs1, hj1⟩ := h1
    obtain ⟨hjj1, hids1⟩ := loadSheets_spec wb now1 names 0 txs1 raw1 jj1 hl1
    have hnd1 : (txs1.map (fun t => t.id)).Nodup := by
      rw [hids1]
      exact List.nodup_range' 0 (sheetCount wb names)
    have hkeys1 : storeKeys s1 = List.range' 0 (sheetCount wb names) := by
      rw [← hs1, upsertTransactions_fresh txs1 [] raw1 hnd1 (by intro t _ hm; simp [storeKeys] at hm)]
      simp [storeKeys, hids1]
    have hlen1 : s1.length = sheetCount wb names := by
      have := congrArg List.length hkeys1
      rw [storeKeys_length] at this
      simpa using this
    refine ⟨hlen1, ?_⟩
    cases hl2 : loadSheets wb now2 names j1 with
    | none =>
      simp only [importWorkbook, hl2] at h2
      exact Option.noConfusion h2
    | some trip2 =>
      obtain ⟨txs2, raw2, jj2⟩ := trip2
      simp only [importWorkbook, hl2, Option.some.injEq, Prod.mk.injEq] at h2
      obtain ⟨hs2, _⟩ := h2
      obtain ⟨hjj2, hids2⟩ := loadSheets_spec wb now2 names j1 txs2 raw2 jj2 hl2
      have hnd2 : (txs2.map (fun t => t.id)).Nodup := by
        rw [hids2]
        exact List.nodup_range' j1 (sheetCount wb names)
      have hdisj2 : ∀ t ∈ txs2, t.id ∉ storeKeys s1 := by
        intro t ht hmem
        have h1r : t.id ∈ List.range' j1 (sheetCount wb names) := by
          rw [← hids2]
          exact List.mem_map_of_mem (fun t => t.id) ht
        have h2r : t.id ∈ List.range' 0 (sheetCount wb names) := by
          rw [← hkeys1]
          exact hmem
        have hlow := (List.mem_range'_1.mp h2r).2
        have hhigh := (List.mem_range'_1.mp h1r).1
        rw [← hj1, hjj1] at hhigh
        omega
      have hkeys2 : storeKeys s2 = storeKeys s1 ++ txs2.map (fun t => t.id) := by
        rw [← hs2]
        exact upsertTransactions_fresh txs2 s1 raw2 hnd2 hdisj2
      have hlen2 := congrArg List.length hkeys2
      rw [storeKeys_length] at hlen2
      rw [List.length_append, storeKeys_length] at hlen2
      have hlen2' : (txs2.map (fun t => t.id)).length = sheetCount wb names := by
        rw [hids2]
        simp
      omega

/-- One-sheet, one-row workbook used by the C1 counterexample and witness. -/
def demoWorkbook : Workbook := [("s", [[]])]

/-- C1 counterexample: with one sheet of one row, the first import stores
one transaction and re-running the identical import stores two — the
transaction count does not stay the same, refuting the claimed idempotence. -/
theorem import_not_idempotent_counterexample :
    (importWorkbook [] demoWorkbook ["s"] 0 0).map (fun p => p.1.length) = some 1 ∧
    ((importWorkbook [] demoWorkbook ["s"] 0 0).bind
      (fun p => importWorkbook p.1 demoWorkbook ["s"] p.2 1)).map (fun p => p.1.length) =
        some 2 ∧
    (2 : Nat) ≠ 1 := by
  refine ⟨rfl, rfl, by decide⟩

/-- Witness for the corrected C1 on the concrete demo workbook: both runs
succeed, the first store has `sheetCount` rows and the second twice as
many. -/
theorem import_twice_duplicates_witness :
    ∃ (s1 s2 : TxStore) (j1 j2 : Nat),
      importWorkbook [] demoWorkbook ["s"] 0 0 = some (s1, j1) ∧
      importWorkbook s1 demoWorkbook ["s"] j1 1 = some (s2, j2) ∧
      s1.length = sheetCount demoWorkbook ["s"] ∧
      s2.length = 2 * sheetCount demoWorkbook ["s"] := by
  refine ⟨_, _, _, _, rfl, rfl, ?_, ?_⟩
  · exact (import_twice_duplicates demoWorkbook ["s"] 0 1 _ _ _ _ rfl rfl).1
  · exact (import_twice_duplicates demoWorkbook ["s"] 0 1 _ _ _ _ rfl rfl).2

end FinanceDash
